import Mathlib

/-!
Verification of the client-side request-correlation protocol and channel
lifecycle orchestration of the yellow-sample repository.

The first part embeds the pending-request registry of
`YellowService` (`connect` / `handleMessage` / `sendRPCMessage` / `cleanup`)
as an executable state machine: a state holds the WebSocket flags, the
string-keyed handler map, the set of armed `setTimeout` timers, the
settlement history of every promise ever created, the messages written to
the transport, the current time and a fresh-id counter.  Events are the
observable triggers of the source: opening the socket, a `sendRPCMessage`
call, an inbound frame, the passage of time, a timer callback firing, and
the transport closing.
-/

namespace Yellow

/-- Outcome with which a pending-request promise of
`YellowService.sendRPCMessage` is settled: `resolved` via
`handler.resolve(data.result || data.params)`, `rpcError` via
`handler.reject(new Error(data.error.message))`, `timedOut` via the
`setTimeout` callback, `connClosed` via `cleanup()`. -/
inductive RPCOutcome
  | resolved
  | rpcError
  | timedOut
  | connClosed
  deriving DecidableEq

/-- An armed `setTimeout` timer created by `sendRPCMessage`: the promise it
can reject (promises are numbered by creation order), the `requestId` its
closure captured, and its absolute expiry time in milliseconds. -/
structure Timer where
  id : Nat
  key : String
  expiry : Nat
  deriving DecidableEq

/-- State of a `YellowService` instance, restricted to the fields the
pending-request registry touches.  `handlers` is the `messageHandlers` map
(association list, unique keys); `armed` holds every `setTimeout` timer
that has neither fired nor been cleared; `settled` records every
resolve/reject call ever made on a registered promise, newest first. -/
structure RegState where
  wsPresent : Bool
  isConnected : Bool
  jwtToken : Option String
  handlers : List (String × Nat)
  armed : List Timer
  settled : List (Nat × RPCOutcome)
  sent : List String
  now : Nat
  nextId : Nat
  deriving DecidableEq

/-- `this.messageHandlers.delete(k)`, and the removal part of a
`Map.set` overwrite. -/
def eraseKey (k : String) (l : List (String × Nat)) : List (String × Nat) :=
  l.filter (fun p => p.1 != k)

/-- `this.messageHandlers.get(k)` / `this.messageHandlers.has(k)`. -/
def lookupKey (k : String) (l : List (String × Nat)) : Option Nat :=
  (l.find? (fun p => p.1 == k)).map Prod.snd

/-- `clearTimeout` of the timer numbered `t`. -/
def disarm (t : Nat) (l : List Timer) : List Timer :=
  l.filter (fun tm => tm.id != t)

/-- Default of the `timeoutMs` parameter of `sendRPCMessage`. -/
def defaultTimeoutMs : Nat := 30000

/-- `YellowService.sendRPCMessage`: throws when the socket is absent or not
connected; otherwise arms a timeout, registers the handler under the
request id (a `Map.set`, overwriting any entry of the same key without
clearing the old timer), and writes the frame to the transport. -/
def sendRPCMessage (s : RegState) (message : String) (requestId : String)
    (timeoutMs : Option Nat) : Except String RegState :=
  if !s.wsPresent || !s.isConnected then
    Except.error "Not connected to Yellow ClearNode"
  else
    Except.ok { s with
      handlers := (requestId, s.nextId) :: eraseKey requestId s.handlers
      armed := Timer.mk s.nextId requestId (s.now + timeoutMs.getD defaultTimeoutMs) :: s.armed
      sent := message :: s.sent
      nextId := s.nextId + 1 }

/-- Parse result of one inbound frame, as `handleMessage` distinguishes
them: a `JSON.parse` failure, the two auth notifications, or a reply
carrying an optional `id` and an optional `error` member. -/
inductive RPCFrame
  | malformed (raw : String)
  | authSuccess (jwt : Option String)
  | authFailure
  | reply (id : Option String) (isError : Bool)
  deriving DecidableEq

/-- `YellowService.handleMessage`: the whole body sits in a try/catch, so a
malformed frame only logs; auth frames never touch the registry; a reply
whose id matches a pending handler clears its timer, settles it and
removes the entry; anything else is ignored.  Returns the new state and
the log lines emitted. -/
def handleMessage (s : RegState) (f : RPCFrame) : RegState × List String :=
  match f with
  | RPCFrame.malformed _ => (s, ["Error handling message:"])
  | RPCFrame.authSuccess jwt => ({ s with jwtToken := jwt }, ["Yellow authentication successful"])
  | RPCFrame.authFailure => (s, ["Authentication failed:"])
  | RPCFrame.reply none _ => (s, [])
  | RPCFrame.reply (some rid) isError =>
    match lookupKey rid s.handlers with
    | none => (s, [])
    | some t =>
      ({ s with
          handlers := eraseKey rid s.handlers
          armed := disarm t s.armed
          settled := (t, if isError then RPCOutcome.rpcError else RPCOutcome.resolved) :: s.settled },
       [])

/-- The `setTimeout` callback of `sendRPCMessage`: deletes whatever entry
currently sits under the captured `requestId` (even one belonging to a
later call that overwrote it) and rejects its own promise. -/
def fireTimeout (s : RegState) (tm : Timer) : RegState :=
  { s with
      handlers := eraseKey tm.key s.handlers
      armed := disarm tm.id s.armed
      settled := (tm.id, RPCOutcome.timedOut) :: s.settled }

/-- `YellowService.cleanup`: clears the timer of every entry still in the
map, rejects each with the connection-closed error, and empties the map.
Timers of entries that were earlier overwritten out of the map stay
armed, exactly as in the source. -/
def cleanup (s : RegState) : RegState :=
  { s with
      handlers := []
      armed := s.armed.filter (fun tm => !((s.handlers.map Prod.snd).contains tm.id))
      settled := (s.handlers.map (fun p => (p.2, RPCOutcome.connClosed))) ++ s.settled }

/-- `ws.onclose`: records the disconnect and runs `cleanup`. -/
def onClose (s : RegState) : RegState :=
  cleanup { s with isConnected := false }

/-- Events driving the registry. -/
inductive REvent
  | wsOpen
  | send (message : String) (requestId : String) (timeoutMs : Option Nat)
  | recv (f : RPCFrame)
  | tick (d : Nat)
  | fire (i : Nat)
  | close
  deriving DecidableEq

/-- One dispatch of the single-threaded event loop.  A timer callback can
only run if the timer is still armed and its deadline has passed; a
`send` that throws leaves the state unchanged. -/
def step (s : RegState) (e : REvent) : RegState :=
  match e with
  | REvent.wsOpen => { s with wsPresent := true, isConnected := true }
  | REvent.send m k d =>
    match sendRPCMessage s m k d with
    | Except.ok s2 => s2
    | Except.error _ => s
  | REvent.recv f => (handleMessage s f).1
  | REvent.tick d => { s with now := s.now + d }
  | REvent.fire i =>
    match s.armed.find? (fun tm => tm.id == i) with
    | some tm => if tm.expiry ≤ s.now then fireTimeout s tm else s
    | none => s
  | REvent.close => onClose s

/-- Freshly constructed `YellowService`. -/
def initState : RegState :=
  { wsPresent := false, isConnected := false, jwtToken := none, handlers := []
    armed := [], settled := [], sent := [], now := 0, nextId := 0 }

/-- Execution of an event trace from the fresh state. -/
def run (es : List REvent) : RegState :=
  es.foldl step initState

/-- Number of resolve/reject calls ever made on promise `t`. -/
def settleCount (s : RegState) (t : Nat) : Nat :=
  s.settled.countP (fun q => q.1 == t)

/-- Whether the timer of promise `t` is still armed. -/
def timerArmed (s : RegState) (t : Nat) : Bool :=
  s.armed.any (fun tm => tm.id == t)

theorem mem_eraseKey {k : String} {l : List (String × Nat)} {p : String × Nat} :
    p ∈ eraseKey k l ↔ p ∈ l ∧ p.1 ≠ k := by
  simp [eraseKey, List.mem_filter]

theorem mem_disarm {t : Nat} {l : List Timer} {tm : Timer} :
    tm ∈ disarm t l ↔ tm ∈ l ∧ tm.id ≠ t := by
  simp [disarm, List.mem_filter]

theorem lookupKey_mem {k : String} {l : List (String × Nat)} {t : Nat}
    (h : lookupKey k l = some t) : (k, t) ∈ l := by
  unfold lookupKey at h
  cases hf : l.find? (fun p => p.1 == k) with
  | none => rw [hf] at h; simp at h
  | some p =>
    rw [hf] at h
    simp at h
    have hm := List.mem_of_find?_eq_some hf
    have hp := List.find?_some hf
    simp at hp
    cases p with
    | mk a b => simp_all

theorem timerArmed_iff {s : RegState} {t : Nat} :
    timerArmed s t = true ↔ ∃ tm ∈ s.armed, tm.id = t := by
  simp [timerArmed, List.any_eq_true]

theorem settleCount_pos_iff {s : RegState} {t : Nat} :
    0 < settleCount s t ↔ ∃ q ∈ s.settled, q.1 = t := by
  simp [settleCount, List.countP_pos_iff]

/-- Well-formedness invariant of the registry, preserved by every event.
`settleOnce` is the heart of the claim: no promise is ever settled twice.
`pendingArmed` guarantees progress: a registered promise that is still
unsettled always has an armed timer left that will settle it. -/
structure WF (s : RegState) : Prop where
  settleOnce : ∀ t, settleCount s t ≤ 1
  pendingArmed : ∀ t, t < s.nextId → settleCount s t = 0 → timerArmed s t = true
  handlersTimer : ∀ p ∈ s.handlers, ∃ tm ∈ s.armed, tm.id = p.2 ∧ tm.key = p.1
  armedIdsNodup : (s.armed.map Timer.id).Nodup
  handlersIdsNodup : (s.handlers.map Prod.snd).Nodup
  armedUnsettled : ∀ tm ∈ s.armed, settleCount s tm.id = 0
  armedLt : ∀ tm ∈ s.armed, tm.id < s.nextId
  handlersLt : ∀ p ∈ s.handlers, p.2 < s.nextId
  settledLt : ∀ q ∈ s.settled, q.1 < s.nextId

theorem WF.init : WF initState := by
  constructor <;> simp [initState, settleCount, timerArmed]

theorem armed_id_inj {s : RegState} (hnd : (s.armed.map Timer.id).Nodup)
    {tm1 tm2 : Timer} (h1 : tm1 ∈ s.armed) (h2 : tm2 ∈ s.armed)
    (h : tm1.id = tm2.id) : tm1 = tm2 :=
  List.inj_on_of_nodup_map hnd h1 h2 h

theorem wf_wsOpen {s : RegState} (h : WF s) : WF (step s REvent.wsOpen) := by
  cases h with
  | mk a b c d e f g i j => exact ⟨a, b, c, d, e, f, g, i, j⟩

theorem wf_tick {s : RegState} {d : Nat} (h : WF s) : WF (step s (REvent.tick d)) := by
  cases h with
  | mk a b c d e f g i j => exact ⟨a, b, c, d, e, f, g, i, j⟩

theorem settleCount_lt_zero {s : RegState} (h : WF s) {t : Nat}
    (ht : s.nextId ≤ t) : settleCount s t = 0 := by
  by_contra hc
  have hpos : 0 < settleCount s t := Nat.pos_of_ne_zero hc
  obtain ⟨q, hq, hqt⟩ := settleCount_pos_iff.mp hpos
  have := h.settledLt q hq
  omega

theorem wf_sendOk {s : RegState} {m k : String} {d : Option Nat} (h : WF s) :
    WF { s with
      handlers := (k, s.nextId) :: eraseKey k s.handlers
      armed := Timer.mk s.nextId k (s.now + d.getD defaultTimeoutMs) :: s.armed
      sent := m :: s.sent
      nextId := s.nextId + 1 } := by
  constructor
  · -- settleOnce: settled unchanged
    intro t
    exact h.settleOnce t
  · -- pendingArmed
    intro t ht hzero
    rcases Nat.lt_succ_iff_lt_or_eq.mp ht with hlt | heq
    · have := h.pendingArmed t hlt hzero
      rw [timerArmed_iff] at this ⊢
      obtain ⟨tm, htm, hid⟩ := this
      exact ⟨tm, List.mem_cons_of_mem _ htm, hid⟩
    · rw [timerArmed_iff]
      exact ⟨_, List.mem_cons_self _ _, heq.symm⟩
  · -- handlersTimer
    intro p hp
    rcases List.mem_cons.mp hp with rfl | hp2
    · exact ⟨_, List.mem_cons_self _ _, rfl, rfl⟩
    · obtain ⟨hmem, _⟩ := mem_eraseKey.mp hp2
      obtain ⟨tm, htm, hid, hkey⟩ := h.handlersTimer p hmem
      exact ⟨tm, List.mem_cons_of_mem _ htm, hid, hkey⟩
  · -- armedIdsNodup
    simp only [List.map_cons]
    refine List.nodup_cons.mpr ⟨?_, h.armedIdsNodup⟩
    intro hc
    obtain ⟨tm, htm, hid⟩ := List.mem_map.mp hc
    have := h.armedLt tm htm
    omega
  · -- handlersIdsNodup
    simp only [List.map_cons]
    refine List.nodup_cons.mpr ⟨?_, ?_⟩
    · intro hc
      obtain ⟨p, hp, hid⟩ := List.mem_map.mp hc
      obtain ⟨hmem, _⟩ := mem_eraseKey.mp hp
      have := h.handlersLt p hmem
      omega
    · exact List.Nodup.sublist (List.Sublist.map _ (List.filter_sublist _)) h.handlersIdsNodup
  · -- armedUnsettled
    intro tm htm
    rcases List.mem_cons.mp htm with rfl | htm2
    · exact settleCount_lt_zero h (Nat.le_refl _)
    · exact h.armedUnsettled tm htm2
  · -- armedLt
    intro tm htm
    rcases List.mem_cons.mp htm with rfl | htm2
    · exact Nat.lt_succ_self _
    · exact Nat.lt_succ_of_lt (h.armedLt tm htm2)
  · -- handlersLt
    intro p hp
    rcases List.mem_cons.mp hp with rfl | hp2
    · exact Nat.lt_succ_self _
    · exact Nat.lt_succ_of_lt (h.handlersLt p (mem_eraseKey.mp hp2).1)
  · -- settledLt
    intro q hq
    exact Nat.lt_succ_of_lt (h.settledLt q hq)

theorem step_send_eq (s : RegState) (m k : String) (d : Option Nat) :
    step s (REvent.send m k d) =
      match sendRPCMessage s m k d with
      | Except.ok s2 => s2
      | Except.error _ => s := rfl

theorem wf_send {s : RegState} {m k : String} {d : Option Nat} (h : WF s) :
    WF (step s (REvent.send m k d)) := by
  rw [step_send_eq]
  unfold sendRPCMessage
  by_cases hc : (!s.wsPresent || !s.isConnected) = true
  · rw [if_pos hc]
    exact h
  · rw [if_neg hc]
    exact wf_sendOk h

theorem countP_fst_cons (u : Nat) (o : RPCOutcome) (l : List (Nat × RPCOutcome)) (t : Nat) :
    ((u, o) :: l).countP (fun q => q.1 == t) =
      l.countP (fun q => q.1 == t) + if u = t then 1 else 0 := by
  rw [List.countP_cons]
  by_cases h : u = t <;> simp [h]

/-- Settling one promise `t` (a reply match or a timer callback): the key
`kk` is deleted from the map, the timer numbered `t` is cleared and one
settlement is recorded.  Requires the timer of `t` to still be armed
under key `kk`, which holds on both call sites. -/
theorem wf_settleEntry {s : RegState} {kk : String} {t : Nat} {o : RPCOutcome}
    (h : WF s) {tm0 : Timer} (htm0 : tm0 ∈ s.armed) (hid : tm0.id = t)
    (hkey : tm0.key = kk) :
    WF { s with
      handlers := eraseKey kk s.handlers
      armed := disarm t s.armed
      settled := (t, o) :: s.settled } := by
  have hzero : settleCount s t = 0 := hid ▸ h.armedUnsettled tm0 htm0
  have hcount : ∀ u, settleCount { s with
      handlers := eraseKey kk s.handlers
      armed := disarm t s.armed
      settled := (t, o) :: s.settled } u =
      settleCount s u + if t = u then 1 else 0 := by
    intro u
    simp only [settleCount]
    exact countP_fst_cons t o s.settled u
  constructor
  · -- settleOnce
    intro u
    rw [hcount]
    by_cases hu : t = u
    · subst hu
      rw [if_pos rfl, hzero]
    · rw [if_neg hu]
      simpa using h.settleOnce u
  · -- pendingArmed
    intro u hu hz
    rw [hcount] at hz
    by_cases hut : t = u
    · subst hut
      rw [if_pos rfl] at hz
      exact absurd hz (by omega)
    · rw [if_neg hut, Nat.add_zero] at hz
      have := h.pendingArmed u hu hz
      rw [timerArmed_iff] at this ⊢
      obtain ⟨tm, htm, htmid⟩ := this
      exact ⟨tm, mem_disarm.mpr ⟨htm, by omega⟩, htmid⟩
  · -- handlersTimer
    intro p hp
    obtain ⟨hmem, hne⟩ := mem_eraseKey.mp hp
    obtain ⟨tm, htm, htmid, htmkey⟩ := h.handlersTimer p hmem
    refine ⟨tm, mem_disarm.mpr ⟨htm, ?_⟩, htmid, htmkey⟩
    intro hEq
    have : tm = tm0 := armed_id_inj h.armedIdsNodup htm htm0 (by omega)
    subst this
    exact hne (htmkey ▸ hkey)
  · -- armedIdsNodup
    exact List.Nodup.sublist (List.Sublist.map _ (List.filter_sublist _)) h.armedIdsNodup
  · -- handlersIdsNodup
    exact List.Nodup.sublist (List.Sublist.map _ (List.filter_sublist _)) h.handlersIdsNodup
  · -- armedUnsettled
    intro tm htm
    obtain ⟨htm2, hne⟩ := mem_disarm.mp htm
    rw [hcount, if_neg (by omega), Nat.add_zero]
    exact h.armedUnsettled tm htm2
  · -- armedLt
    intro tm htm
    exact h.armedLt tm (mem_disarm.mp htm).1
  · -- handlersLt
    intro p hp
    exact h.handlersLt p (mem_eraseKey.mp hp).1
  · -- settledLt
    intro q hq
    rcases List.mem_cons.mp hq with rfl | hq2
    · exact hid ▸ h.armedLt tm0 htm0
    · exact h.settledLt q hq2

theorem wf_recv {s : RegState} {f : RPCFrame} (h : WF s) :
    WF (step s (REvent.recv f)) := by
  show WF (handleMessage s f).1
  cases f with
  | malformed raw => exact h
  | authSuccess jwt =>
    cases h with
    | mk a b c d e f g i j => exact ⟨a, b, c, d, e, f, g, i, j⟩
  | authFailure => exact h
  | reply id isError =>
    cases id with
    | none => exact h
    | some rid =>
      show WF (match lookupKey rid s.handlers with
        | none => (s, ([] : List String))
        | some t =>
          ({ s with
              handlers := eraseKey rid s.handlers
              armed := disarm t s.armed
              settled := (t, if isError then RPCOutcome.rpcError else RPCOutcome.resolved) :: s.settled },
           ([] : List String))).1
      cases hl : lookupKey rid s.handlers with
      | none => exact h
      | some t =>
        have hmem := lookupKey_mem hl
        obtain ⟨tm0, htm0, hid, hkey⟩ := h.handlersTimer (rid, t) hmem
        exact wf_settleEntry h htm0 hid hkey

theorem wf_fire {s : RegState} {i : Nat} (h : WF s) :
    WF (step s (REvent.fire i)) := by
  show WF (match s.armed.find? (fun tm => tm.id == i) with
    | some tm => if tm.expiry ≤ s.now then fireTimeout s tm else s
    | none => s)
  cases hf : s.armed.find? (fun tm => tm.id == i) with
  | none => exact h
  | some tm =>
    show WF (if tm.expiry ≤ s.now then fireTimeout s tm else s)
    by_cases hexp : tm.expiry ≤ s.now
    · rw [if_pos hexp]
      have htm := List.mem_of_find?_eq_some hf
      exact wf_settleEntry h htm rfl rfl
    · rw [if_neg hexp]
      exact h

theorem countP_closeAll (l : List (String × Nat)) (u : Nat) :
    (l.map (fun p => (p.2, RPCOutcome.connClosed))).countP (fun q => q.1 == u) =
      (l.map Prod.snd).count u := by
  induction l with
  | nil => rfl
  | cons p l ih => by_cases hp : p.2 = u <;> simp [List.count_cons, hp, ih]

theorem mem_cleanupArmed {s : RegState} {tm : Timer} :
    tm ∈ (onClose s).armed ↔ tm ∈ s.armed ∧ tm.id ∉ s.handlers.map Prod.snd := by
  show tm ∈ s.armed.filter (fun tm => !((s.handlers.map Prod.snd).contains tm.id)) ↔ _
  simp [List.mem_filter, List.contains, List.elem_iff]

theorem settleCount_onClose (s : RegState) (u : Nat) :
    settleCount (onClose s) u = (s.handlers.map Prod.snd).count u + settleCount s u := by
  show ((s.handlers.map (fun p => (p.2, RPCOutcome.connClosed))) ++ s.settled).countP
      (fun q => q.1 == u) = _
  rw [List.countP_append, countP_closeAll]
  rfl

theorem wf_close {s : RegState} (h : WF s) : WF (step s REvent.close) := by
  show WF (onClose s)
  have hids : ∀ u, u ∈ s.handlers.map Prod.snd → settleCount s u = 0 := by
    intro u hu
    obtain ⟨p, hp, hpu⟩ := List.mem_map.mp hu
    obtain ⟨tm, htm, hid, _⟩ := h.handlersTimer p hp
    have := h.armedUnsettled tm htm
    rw [hid, hpu] at this
    exact this
  constructor
  · -- settleOnce
    intro u
    rw [settleCount_onClose]
    by_cases hu : u ∈ s.handlers.map Prod.snd
    · rw [List.count_eq_one_of_mem h.handlersIdsNodup hu, hids u hu]
    · rw [List.count_eq_zero_of_not_mem hu]
      simpa using h.settleOnce u
  · -- pendingArmed
    intro u hu hz
    rw [settleCount_onClose] at hz
    have hnotin : u ∉ s.handlers.map Prod.snd := by
      intro hmem
      rw [List.count_eq_one_of_mem h.handlersIdsNodup hmem] at hz
      omega
    have hold : settleCount s u = 0 := by omega
    have hu2 : u < s.nextId := hu
    have := h.pendingArmed u hu2 hold
    rw [timerArmed_iff] at this
    obtain ⟨tm, htm, hid⟩ := this
    rw [timerArmed_iff]
    exact ⟨tm, mem_cleanupArmed.mpr ⟨htm, hid ▸ hnotin⟩, hid⟩
  · -- handlersTimer
    intro p hp
    simp [onClose, cleanup] at hp
  · -- armedIdsNodup
    exact List.Nodup.sublist (List.Sublist.map _ (List.filter_sublist _)) h.armedIdsNodup
  · -- handlersIdsNodup
    show (List.map Prod.snd []).Nodup
    simp
  · -- armedUnsettled
    intro tm htm
    obtain ⟨htm2, hnotin⟩ := mem_cleanupArmed.mp htm
    rw [settleCount_onClose, List.count_eq_zero_of_not_mem hnotin]
    simpa using h.armedUnsettled tm htm2
  · -- armedLt
    intro tm htm
    exact h.armedLt tm (mem_cleanupArmed.mp htm).1
  · -- handlersLt
    intro p hp
    simp [onClose, cleanup] at hp
  · -- settledLt
    intro q hq
    show q.1 < s.nextId
    rcases List.mem_append.mp hq with hq1 | hq2
    · obtain ⟨p, hp, hpq⟩ := List.mem_map.mp hq1
      have := h.handlersLt p hp
      rw [← hpq]
      exact this
    · exact h.settledLt q hq2

theorem wf_step {s : RegState} (e : REvent) (h : WF s) : WF (step s e) := by
  cases e with
  | wsOpen => exact wf_wsOpen h
  | send m k d => exact wf_send h
  | recv f => exact wf_recv h
  | tick d => exact wf_tick h
  | fire i => exact wf_fire h
  | close => exact wf_close h

theorem wf_foldl (es : List REvent) : ∀ s : RegState, WF s → WF (es.foldl step s) := by
  induction es with
  | nil => intro s h; exact h
  | cons e es ih => intro s h; exact ih (step s e) (wf_step e h)

theorem wf_run (es : List REvent) : WF (run es) :=
  wf_foldl es initState WF.init

/-!
Model of `createApplicationSession` in `yellow-app/src/config.ts`: a single
module-level `pendingAppSession` slot with its own 10-second timeout.
-/

/-- The record `pendingAppSession` points to while a request is in flight:
promise number and the absolute expiry of its `setTimeout`. -/
structure AppPending where
  id : Nat
  expiry : Nat
  deriving DecidableEq

/-- Settlement of a `createApplicationSession` promise. -/
inductive AppOutcome
  | resolvedId (sid : String)
  | rejectedInProgress
  | rejectedNoId
  | rejectedTimeout
  | rejectedErr
  deriving DecidableEq

/-- State of the quickstart script around `pendingAppSession`. -/
structure AppState where
  pendingApp : Option AppPending
  settledApp : List (Nat × AppOutcome)
  sentApp : List String
  nowA : Nat
  nextA : Nat
  deriving DecidableEq

/-- The hard-coded `setTimeout(..., 10000)` of `createApplicationSession`. -/
def appSessionTimeoutMs : Nat := 10000

def initAppState : AppState :=
  { pendingApp := none, settledApp := [], sentApp := [], nowA := 0, nextA := 0 }

/-- `createApplicationSession`: rejects immediately when another request is
already pending; otherwise arms the 10-second timeout, stores the pending
record and sends the signed message. -/
def createApplicationSession (a : AppState) (msg : String) : AppState :=
  match a.pendingApp with
  | some _ =>
    { a with settledApp := (a.nextA, AppOutcome.rejectedInProgress) :: a.settledApp
             nextA := a.nextA + 1 }
  | none =>
    { a with pendingApp := some (AppPending.mk a.nextA (a.nowA + appSessionTimeoutMs))
             sentApp := msg :: a.sentApp
             nextA := a.nextA + 1 }

/-- The timeout callback: if a request is still pending it is rejected
with the creation-timeout error and the slot is cleared. -/
def appTimeoutFire (a : AppState) : AppState :=
  match a.pendingApp with
  | some p =>
    { a with pendingApp := none
             settledApp := (p.id, AppOutcome.rejectedTimeout) :: a.settledApp }
  | none => a

/-- Response shape inspected by `handleAppSessionResponse`. -/
inductive AppFrame
  | res (method : String) (sid : Option String)
  | errF (code : Nat) (msg : String)
  | otherF
  deriving DecidableEq

/-- `handleAppSessionResponse`: settles the pending request on a matching
`res` frame or on any `err` frame, returning whether it consumed the
message. -/
def handleAppSessionResponse (a : AppState) (f : AppFrame) : AppState × Bool :=
  match a.pendingApp with
  | none => (a, false)
  | some p =>
    match f with
    | AppFrame.res m sid =>
      if m = "create_app_session" ∨ m = "app_session_created" then
        match sid with
        | none =>
          ({ a with pendingApp := none
                    settledApp := (p.id, AppOutcome.rejectedNoId) :: a.settledApp }, true)
        | some x =>
          ({ a with pendingApp := none
                    settledApp := (p.id, AppOutcome.resolvedId x) :: a.settledApp }, true)
      else (a, false)
    | AppFrame.errF _ _ =>
      ({ a with pendingApp := none
                settledApp := (p.id, AppOutcome.rejectedErr) :: a.settledApp }, true)
    | AppFrame.otherF => (a, false)

theorem lookupKey_eraseKey (k : String) (l : List (String × Nat)) :
    lookupKey k (eraseKey k l) = none := by
  have h : (eraseKey k l).find? (fun p => p.1 == k) = none := by
    rw [List.find?_eq_none]
    intro p hp
    have := (mem_eraseKey.mp hp).2
    simpa using this
  simp [lookupKey, h]

theorem step_fire_eq (s : RegState) (i : Nat) :
    step s (REvent.fire i) =
      match s.armed.find? (fun tm => tm.id == i) with
      | some tm => if tm.expiry ≤ s.now then fireTimeout s tm else s
      | none => s := rfl

/-- C1: every promise registered by `sendRPCMessage` is settled at most
once over any event trace (never both resolve and reject, never twice);
and once every armed timer has been disposed of — each pending request got
a matching response, its timeout expired, or the transport closed — every
registered promise is settled exactly once (never zero settlements). -/
theorem pending_request_settled_exactly_once (es : List REvent) :
    (∀ t, settleCount (run es) t ≤ 1) ∧
    ((run es).armed = [] → ∀ t, t < (run es).nextId → settleCount (run es) t = 1) := by
  have h := wf_run es
  refine ⟨h.settleOnce, ?_⟩
  intro harmed t ht
  have hle := h.settleOnce t
  by_cases hz : settleCount (run es) t = 0
  · have := h.pendingArmed t ht hz
    rw [timerArmed_iff] at this
    obtain ⟨tm, htm, _⟩ := this
    rw [harmed] at htm
    simp at htm
  · omega

/-- Event trace exercising all three settlement paths: promise 0 resolves
by a matching reply, promise 1 rejects by timeout expiry, promise 2
rejects when the transport closes. -/
def c1Trace : List REvent :=
  [REvent.wsOpen,
   REvent.send "req-a" "1" none,
   REvent.recv (RPCFrame.reply (some "1") false),
   REvent.send "req-b" "2" (some 5000),
   REvent.tick 5000,
   REvent.fire 1,
   REvent.send "req-c" "3" none,
   REvent.close]

theorem pending_request_settled_exactly_once_witness :
    (run c1Trace).armed = [] ∧ settleCount (run c1Trace) 0 = 1 ∧
      settleCount (run c1Trace) 1 = 1 ∧ settleCount (run c1Trace) 2 = 1 :=
  ⟨by decide,
   (pending_request_settled_exactly_once c1Trace).2 (by decide) 0 (by decide),
   (pending_request_settled_exactly_once c1Trace).2 (by decide) 1 (by decide),
   (pending_request_settled_exactly_once c1Trace).2 (by decide) 2 (by decide)⟩

/-- C5: a request that never receives a matching response is rejected by
its timer, not left hanging.  `sendRPCMessage` arms the timer with the
default 30000 ms deadline when no `timeoutMs` is given; a timer can only
run once its deadline has passed; when it runs while the request is still
registered, the promise is rejected with the timeout error and the
registry entry removed.  `createApplicationSession` arms its own
10-second timeout whose callback rejects the pending promise and clears
the slot. -/
theorem request_timeout_rejects_and_removes :
    defaultTimeoutMs = 30000 ∧
    appSessionTimeoutMs = 10000 ∧
    (∀ (s : RegState) (m k : String), s.wsPresent = true → s.isConnected = true →
      ∃ s2, sendRPCMessage s m k none = Except.ok s2 ∧
        Timer.mk s.nextId k (s.now + 30000) ∈ s2.armed) ∧
    (∀ (s : RegState) (i : Nat) (tm : Timer),
      s.armed.find? (fun x => x.id == i) = some tm → s.now < tm.expiry →
      step s (REvent.fire i) = s) ∧
    (∀ (s : RegState) (i : Nat) (tm : Timer),
      s.armed.find? (fun x => x.id == i) = some tm → tm.expiry ≤ s.now →
      (tm.id, RPCOutcome.timedOut) ∈ (step s (REvent.fire i)).settled ∧
      lookupKey tm.key (step s (REvent.fire i)).handlers = none) ∧
    (∀ (a : AppState) (msg : String), a.pendingApp = none →
      (createApplicationSession a msg).pendingApp =
        some (AppPending.mk a.nextA (a.nowA + 10000))) ∧
    (∀ (a : AppState) (p : AppPending), a.pendingApp = some p →
      (appTimeoutFire a).pendingApp = none ∧
      (p.id, AppOutcome.rejectedTimeout) ∈ (appTimeoutFire a).settledApp) := by
  refine ⟨rfl, rfl, ?_, ?_, ?_, ?_, ?_⟩
  · intro s m k hws hconn
    refine ⟨{ s with
        handlers := (k, s.nextId) :: eraseKey k s.handlers
        armed := Timer.mk s.nextId k (s.now + 30000) :: s.armed
        sent := m :: s.sent
        nextId := s.nextId + 1 }, ?_, ?_⟩
    · unfold sendRPCMessage
      rw [if_neg (by simp [hws, hconn])]
      rfl
    · exact List.mem_cons_self _ _
  · intro s i tm hf hlt
    rw [step_fire_eq, hf]
    show (if tm.expiry ≤ s.now then fireTimeout s tm else s) = s
    rw [if_neg (by omega)]
  · intro s i tm hf hle
    rw [step_fire_eq, hf]
    show (tm.id, RPCOutcome.timedOut) ∈
        (if tm.expiry ≤ s.now then fireTimeout s tm else s).settled ∧
      lookupKey tm.key (if tm.expiry ≤ s.now then fireTimeout s tm else s).handlers = none
    rw [if_pos hle]
    exact ⟨List.mem_cons_self _ _, lookupKey_eraseKey _ _⟩
  · intro a msg hp
    unfold createApplicationSession
    rw [hp]
    rfl
  · intro a p hp
    unfold appTimeoutFire
    rw [hp]
    exact ⟨rfl, List.mem_cons_self _ _⟩

/-- State with one registered request whose 1000 ms timer has expired. -/
def c5State : RegState :=
  run [REvent.wsOpen, REvent.send "req" "7" (some 1000), REvent.tick 1000]

/-- Same state before the deadline. -/
def c5StateEarly : RegState :=
  run [REvent.wsOpen, REvent.send "req" "7" (some 1000)]

theorem request_timeout_rejects_and_removes_witness :
    (∃ s2, sendRPCMessage c5State "m" "8" none = Except.ok s2 ∧
      Timer.mk c5State.nextId "8" (c5State.now + 30000) ∈ s2.armed) ∧
    step c5StateEarly (REvent.fire 0) = c5StateEarly ∧
    ((Timer.mk 0 "7" 1000).id, RPCOutcome.timedOut) ∈ (step c5State (REvent.fire 0)).settled ∧
    lookupKey (Timer.mk 0 "7" 1000).key (step c5State (REvent.fire 0)).handlers = none ∧
    (createApplicationSession initAppState "smsg").pendingApp =
      some (AppPending.mk initAppState.nextA (initAppState.nowA + 10000)) ∧
    (appTimeoutFire (createApplicationSession initAppState "smsg")).pendingApp = none :=
  ⟨request_timeout_rejects_and_removes.2.2.1 c5State "m" "8" (by decide) (by decide),
   request_timeout_rejects_and_removes.2.2.2.1 c5StateEarly 0 (Timer.mk 0 "7" 1000)
     (by decide) (by decide),
   (request_timeout_rejects_and_removes.2.2.2.2.1 c5State 0 (Timer.mk 0 "7" 1000)
     (by decide) (by decide)).1,
   (request_timeout_rejects_and_removes.2.2.2.2.1 c5State 0 (Timer.mk 0 "7" 1000)
     (by decide) (by decide)).2,
   request_timeout_rejects_and_removes.2.2.2.2.2.1 initAppState "smsg" rfl,
   (request_timeout_rejects_and_removes.2.2.2.2.2.2 (createApplicationSession initAppState "smsg")
     (AppPending.mk initAppState.nextA (initAppState.nowA + 10000))
     (request_timeout_rejects_and_removes.2.2.2.2.2.1 initAppState "smsg" rfl)).1⟩

/-- C6: when the transport closes, `cleanup` rejects every still-pending
entry with the connection-closed error, clears its timeout timer, and
leaves the registry empty — no pending entry remains unsettled. -/
theorem close_rejects_all_pending (s : RegState) :
    (step s REvent.close).handlers = [] ∧
    ∀ p ∈ s.handlers,
      ((p.2, RPCOutcome.connClosed) ∈ (step s REvent.close).settled ∧
       timerArmed (step s REvent.close) p.2 = false) := by
  refine ⟨rfl, ?_⟩
  intro p hp
  constructor
  · show _ ∈ (s.handlers.map (fun p => (p.2, RPCOutcome.connClosed))) ++ s.settled
    exact List.mem_append_left _ (List.mem_map.mpr ⟨p, hp, rfl⟩)
  · rw [Bool.eq_false_iff]
    intro ht
    rw [timerArmed_iff] at ht
    obtain ⟨tm, htm, hid⟩ := ht
    exact (mem_cleanupArmed.mp htm).2 (by rw [hid]; exact List.mem_map.mpr ⟨p, hp, rfl⟩)

/-- State with one still-pending request. -/
def c6State : RegState := run [REvent.wsOpen, REvent.send "req" "1" none]

theorem close_rejects_all_pending_witness :
    (step c6State REvent.close).handlers = [] ∧
    (((1 : Nat), (0 : Nat)).2, RPCOutcome.connClosed) ∈ (step c6State REvent.close).settled ∧
    timerArmed (step c6State REvent.close) (("1", (0 : Nat)).2) = false :=
  ⟨(close_rejects_all_pending c6State).1,
   ((close_rejects_all_pending c6State).2 ("1", 0) (by decide)).1,
   ((close_rejects_all_pending c6State).2 ("1", 0) (by decide)).2⟩

/-- C8: sending while the socket is absent or the connected flag is false
throws the not-connected error, writes nothing to the transport and
creates no registry entry: the state is unchanged. -/
theorem send_when_not_connected (s : RegState) (m k : String) (d : Option Nat)
    (h : s.wsPresent = false ∨ s.isConnected = false) :
    sendRPCMessage s m k d = Except.error "Not connected to Yellow ClearNode" ∧
    step s (REvent.send m k d) = s := by
  have hc : (!s.wsPresent || !s.isConnected) = true := by
    rcases h with h | h <;> simp [h]
  constructor
  · unfold sendRPCMessage
    rw [if_pos hc]
  · rw [step_send_eq]
    unfold sendRPCMessage
    rw [if_pos hc]

theorem send_when_not_connected_witness :
    sendRPCMessage initState "m" "1" none = Except.error "Not connected to Yellow ClearNode" ∧
    step initState (REvent.send "m" "1" none) = initState :=
  send_when_not_connected initState "m" "1" none (Or.inl rfl)

/-!
Model of the channel-lifecycle sequencer in `yellow-app/src/demo.ts`.  The
handlers of its single `ws.onmessage` dispatcher are linear `async`
scripts; each is embedded as a function from its inputs (frame payloads
and the results of the external contract calls it awaits) to the ordered
list of effects it performs plus its resulting local state.
-/

/-- One observable effect of the demo script, in program order. -/
inductive DemoAction
  | logLine (msg : String)
  | warnLine (msg : String)
  | errorLine (msg : String)
  | wsSend (method : String) (channelId : String)
  | awaitResponse (method : String) (channelId : String)
  | sleepMs (ms : Nat)
  | readContract (what : String)
  | submitCloseTx (channelId : String)
  | awaitReceipt
  | withdrawTx (amount : Nat)
  | exitProcess (code : Nat)
  deriving DecidableEq

/-- Action `a` is performed strictly before action `b` in the script `l`. -/
def precedes (l : List DemoAction) (a b : DemoAction) : Prop :=
  ∃ i j : Nat, i < j ∧ l[i]? = some a ∧ l[j]? = some b

/-- `const amountToFund = 20n` — the funding threshold of `demo.ts`. -/
def amountToFund : Nat := 20

/-- `triggerResize(channelId, token, skipResize)`: waits 5 s for indexing,
then — unless `skipResize` — sends the resize request and suspends until a
`resize_channel` response for this channel arrives; afterwards it reads
the channel and custody balances and sends the close request. -/
def triggerResize (channelId token : String) (skipResize : Bool) : List DemoAction :=
  [DemoAction.logLine "Using existing channel:",
   DemoAction.sleepMs 5000] ++
  (if skipResize then
    [DemoAction.logLine "Skipping resize step (already funded)."]
   else
    [DemoAction.logLine "Requesting resize to fund channel with 20 tokens...",
     DemoAction.wsSend "resize_channel" channelId,
     DemoAction.logLine "Waiting for resize confirmation...",
     DemoAction.awaitResponse "resize_channel" channelId,
     DemoAction.sleepMs 2000,
     DemoAction.logLine "Resize complete."]) ++
  [DemoAction.readContract ("getChannelBalances:" ++ token),
   DemoAction.readContract ("getAccountsBalances:" ++ token),
   DemoAction.sleepMs 2000,
   DemoAction.wsSend "close_channel" channelId,
   DemoAction.logLine "Sent close channel request"]

/-- Fields of one entry of the `channels` response payload that the
handler inspects. -/
structure ChannelInfo where
  channel_id : String
  status : String
  amount : Nat
  deriving DecidableEq

/-- The `channels` message handler: picks the first open channel; if its
amount is at least the 20-unit threshold it runs `triggerResize` with
`skipResize = true`, otherwise with `false`; with no open channel it
requests creation of a new one. -/
def channelsHandler (channels : List ChannelInfo) (token : String) : List DemoAction :=
  match channels.find? (fun c => c.status == "open") with
  | some c =>
    if amountToFund ≤ c.amount then
      DemoAction.logLine "Found existing open channel" ::
      DemoAction.logLine "Skipping resize to avoid Insufficient Balance errors." ::
      triggerResize c.channel_id token true
    else
      DemoAction.logLine "Found existing open channel" ::
      triggerResize c.channel_id token false
  | none =>
    [DemoAction.logLine "No existing open channel found, creating new one...",
     DemoAction.wsSend "create_channel" ""]

/-- Module-level mutable state of `demo.ts` used by the close handler. -/
structure DemoState where
  isClosingChannel : Bool
  deriving DecidableEq

/-- Result of one run of the `close_channel` handler. -/
structure CloseResult where
  finalState : DemoState
  actions : List DemoAction
  exitCode : Option Nat
  deriving DecidableEq

/-- The `close_channel` message handler.  `closeSubmit` is the outcome of
`client.closeChannel` (it may throw), `withdrawableRead` the custody
balance read (`none` when the read throws, which is caught), and
`withdrawResult` the outcome of `client.withdrawal`.  A duplicate frame —
`isClosingChannel` already set — is ignored.  Otherwise the flag is set,
the close is submitted; on success the handler awaits the receipt,
sleeps 5 s, checks the withdrawable balance, attempts withdrawal only on
a positive balance, downgrades a withdrawal failure to warnings, and
exits 0; a close-submission failure exits 1. -/
def closeChannelHandler (st : DemoState) (channelId : String)
    (closeSubmit : Except String String)
    (withdrawableRead : Option Nat)
    (withdrawResult : Except String String) : CloseResult :=
  if st.isClosingChannel then
    { finalState := st
      actions := [DemoAction.logLine "(Ignoring duplicate close message)"]
      exitCode := none }
  else
    match closeSubmit with
    | Except.error _ =>
      { finalState := DemoState.mk true
        actions := [DemoAction.submitCloseTx channelId,
                    DemoAction.errorLine "Channel close failed:",
                    DemoAction.logLine "Demo completed with warnings"]
        exitCode := some 1 }
    | Except.ok _ =>
      { finalState := DemoState.mk true
        actions :=
          [DemoAction.submitCloseTx channelId,
           DemoAction.logLine "Channel closed on-chain:",
           DemoAction.awaitReceipt,
           DemoAction.logLine "Close transaction confirmed",
           DemoAction.sleepMs 5000,
           DemoAction.readContract "getAccountsBalances"] ++
          (match withdrawableRead with
           | none => [DemoAction.warnLine "Error checking withdrawable balance:"]
           | some _ => []) ++
          (if 0 < withdrawableRead.getD 0 then
            DemoAction.withdrawTx (withdrawableRead.getD 0) ::
            (match withdrawResult with
             | Except.ok _ => [DemoAction.logLine "Funds withdrawn successfully:"]
             | Except.error _ =>
               [DemoAction.warnLine "Withdrawal failed:",
                DemoAction.warnLine "This may happen if the channel state has not fully settled on-chain yet.",
                DemoAction.logLine "Channel operations completed successfully (create, resize, close)",
                DemoAction.logLine "Note: Withdrawal can be performed manually later when the state settles."])
           else
            [DemoAction.logLine "No funds to withdraw."]) ++
          [DemoAction.logLine "Demo completed successfully!",
           DemoAction.exitProcess 0]
        exitCode := some 0 }

/-- `setTimeout` interval of the custody-balance polling loop. -/
def pollIntervalMs : Nat := 2000

/-- `while (retries < 30)` bound of the polling loop. -/
def pollMaxAttempts : Nat := 30

/-- The polling loop of the `resize_channel` handler.  `balanceAt n` is
the custody balance the chain reports at the n-th read (`none` when the
read throws; the catch keeps the previous value).  The fuel argument is
`pollMaxAttempts - retries`, so the loop structure matches
`while (retries < 30)`.  Returns the last observed balance, the final
retries counter and the total milliseconds slept. -/
def pollAux (balanceAt : Nat → Option Nat) (required : Nat) :
    Nat → Nat → Nat → Nat → Nat × Nat × Nat
  | 0, retries, cur, slept => (cur, retries, slept)
  | fuel + 1, retries, cur, slept =>
    let b := (balanceAt retries).getD cur
    if required ≤ b then (b, retries, slept)
    else pollAux balanceAt required fuel (retries + 1) b (slept + pollIntervalMs)

/-- Summary of one run of the `resize_channel` handler after its poll. -/
structure ResizeOutcome where
  finalBalance : Nat
  finalRetries : Nat
  sleptMs : Nat
  warnedLowBalance : Bool
  submittedResize : Bool
  deriving DecidableEq

/-- The `resize_channel` handler around its polling loop: an initial
balance read (caught on error, defaulting to 0), the loop, then — warning
if the balance still falls short — the unconditional on-chain resize
submission.  No branch throws. -/
def resizeChannelHandler (initRead : Option Nat) (balanceAt : Nat → Option Nat)
    (required : Nat) : ResizeOutcome :=
  let r := pollAux balanceAt required pollMaxAttempts 0 (initRead.getD 0) 0
  { finalBalance := r.1
    finalRetries := r.2.1
    sleptMs := r.2.2
    warnedLowBalance := decide (r.1 < required)
    submittedResize := true }

/-- Parsed shape of an inbound frame as the demo handlers look at it. -/
structure DemoMsg where
  resMethod : Option String
  msgType : Option String
  deriving DecidableEq

/-- A raw WebSocket frame: either well-formed JSON or not. -/
inductive RawWsFrame
  | valid (m : DemoMsg)
  | nonJson (raw : String)
  deriving DecidableEq

/-- C2: once the close handler has begun processing — the
`isClosingChannel` flag is set — a close_channel frame is answered only
with the duplicate-suppression log and never triggers a second on-chain
close submission; moreover every non-duplicate run sets the flag, so the
frame after any first close frame is always ignored. -/
theorem duplicate_close_frame_ignored :
    (∀ (st : DemoState) (cid : String) (cs : Except String String)
        (wr : Option Nat) (wres : Except String String),
      st.isClosingChannel = true →
      closeChannelHandler st cid cs wr wres =
        { finalState := st
          actions := [DemoAction.logLine "(Ignoring duplicate close message)"]
          exitCode := none } ∧
      ∀ c, DemoAction.submitCloseTx c ∉ (closeChannelHandler st cid cs wr wres).actions) ∧
    (∀ (st : DemoState) (cid : String) (cs : Except String String)
        (wr : Option Nat) (wres : Except String String),
      st.isClosingChannel = false →
      (closeChannelHandler st cid cs wr wres).finalState.isClosingChannel = true) ∧
    (∀ (st : DemoState) (cid : String) (cs : Except String String)
        (wr : Option Nat) (wres : Except String String)
        (cid2 : String) (cs2 : Except String String)
        (wr2 : Option Nat) (wres2 : Except String String),
      st.isClosingChannel = false →
      ∀ c, DemoAction.submitCloseTx c ∉
        (closeChannelHandler (closeChannelHandler st cid cs wr wres).finalState
          cid2 cs2 wr2 wres2).actions) := by
  refine ⟨?_, ?_, ?_⟩
  · intro st cid cs wr wres hflag
    have he : closeChannelHandler st cid cs wr wres =
        { finalState := st
          actions := [DemoAction.logLine "(Ignoring duplicate close message)"]
          exitCode := none } := by
      unfold closeChannelHandler
      rw [if_pos hflag]
    refine ⟨he, ?_⟩
    intro c
    rw [he]
    simp
  · intro st cid cs wr wres hflag
    unfold closeChannelHandler
    rw [if_neg (by simp [hflag])]
    cases cs <;> rfl
  · intro st cid cs wr wres cid2 cs2 wr2 wres2 hflag c
    have h2 : (closeChannelHandler st cid cs wr wres).finalState.isClosingChannel = true := by
      unfold closeChannelHandler
      rw [if_neg (by simp [hflag])]
      cases cs <;> rfl
    generalize (closeChannelHandler st cid cs wr wres).finalState = st2 at h2
    unfold closeChannelHandler
    rw [if_pos h2]
    simp

theorem duplicate_close_frame_ignored_witness :
    closeChannelHandler (DemoState.mk true) "0xc" (Except.ok "0xtx") (some 5) (Except.ok "0xw") =
      { finalState := DemoState.mk true
        actions := [DemoAction.logLine "(Ignoring duplicate close message)"]
        exitCode := none } ∧
    (closeChannelHandler (DemoState.mk false) "0xc" (Except.ok "0xtx") (some 5)
        (Except.ok "0xw")).finalState.isClosingChannel = true ∧
    DemoAction.submitCloseTx "0xc" ∉
      (closeChannelHandler
        (closeChannelHandler (DemoState.mk false) "0xc" (Except.ok "0xtx") (some 5)
          (Except.ok "0xw")).finalState
        "0xc" (Except.ok "0xtx2") (some 5) (Except.ok "0xw2")).actions :=
  ⟨(duplicate_close_frame_ignored.1 (DemoState.mk true) "0xc" (Except.ok "0xtx") (some 5)
      (Except.ok "0xw") rfl).1,
   duplicate_close_frame_ignored.2.1 (DemoState.mk false) "0xc" (Except.ok "0xtx") (some 5)
      (Except.ok "0xw") rfl,
   duplicate_close_frame_ignored.2.2 (DemoState.mk false) "0xc" (Except.ok "0xtx") (some 5)
      (Except.ok "0xw") "0xc" (Except.ok "0xtx2") (some 5) (Except.ok "0xw2") rfl "0xc"⟩

/-- C3: with an existing open channel at or above the 20-unit threshold
the handler never sends a resize request and still issues the close
request; below the threshold the resize request is sent first, the
handler suspends on the resize confirmation, and only after it does the
close request go out. -/
theorem reuse_skips_funding_and_closes (channels : List ChannelInfo) (token : String)
    (c : ChannelInfo) (hfind : channels.find? (fun c => c.status == "open") = some c) :
    (amountToFund ≤ c.amount →
      (∀ cid, DemoAction.wsSend "resize_channel" cid ∉ channelsHandler channels token) ∧
      DemoAction.wsSend "close_channel" c.channel_id ∈ channelsHandler channels token) ∧
    (c.amount < amountToFund →
      precedes (channelsHandler channels token)
        (DemoAction.wsSend "resize_channel" c.channel_id)
        (DemoAction.awaitResponse "resize_channel" c.channel_id) ∧
      precedes (channelsHandler channels token)
        (DemoAction.awaitResponse "resize_channel" c.channel_id)
        (DemoAction.wsSend "close_channel" c.channel_id)) := by
  constructor
  · intro hge
    have he : channelsHandler channels token =
        DemoAction.logLine "Found existing open channel" ::
        DemoAction.logLine "Skipping resize to avoid Insufficient Balance errors." ::
        triggerResize c.channel_id token true := by
      simp only [channelsHandler, hfind]
      rw [if_pos hge]
    rw [he]
    constructor
    · intro cid
      simp [triggerResize]
    · simp [triggerResize]
  · intro hlt
    have he : channelsHandler channels token =
        DemoAction.logLine "Found existing open channel" ::
        triggerResize c.channel_id token false := by
      simp only [channelsHandler, hfind]
      rw [if_neg (by omega)]
    rw [he]
    exact ⟨⟨4, 6, by omega, rfl, rfl⟩, ⟨6, 12, by omega, rfl, rfl⟩⟩

theorem reuse_skips_funding_and_closes_witness :
    ((∀ cid, DemoAction.wsSend "resize_channel" cid ∉
        channelsHandler [ChannelInfo.mk "0xhi" "open" 40] "tok") ∧
      DemoAction.wsSend "close_channel" (ChannelInfo.mk "0xhi" "open" 40).channel_id ∈
        channelsHandler [ChannelInfo.mk "0xhi" "open" 40] "tok") ∧
    (precedes (channelsHandler [ChannelInfo.mk "0xlo" "open" 5] "tok")
        (DemoAction.wsSend "resize_channel" (ChannelInfo.mk "0xlo" "open" 5).channel_id)
        (DemoAction.awaitResponse "resize_channel" (ChannelInfo.mk "0xlo" "open" 5).channel_id) ∧
      precedes (channelsHandler [ChannelInfo.mk "0xlo" "open" 5] "tok")
        (DemoAction.awaitResponse "resize_channel" (ChannelInfo.mk "0xlo" "open" 5).channel_id)
        (DemoAction.wsSend "close_channel" (ChannelInfo.mk "0xlo" "open" 5).channel_id)) :=
  ⟨(reuse_skips_funding_and_closes [ChannelInfo.mk "0xhi" "open" 40] "tok"
      (ChannelInfo.mk "0xhi" "open" 40) (by decide)).1 (by decide),
   (reuse_skips_funding_and_closes [ChannelInfo.mk "0xlo" "open" 5] "tok"
      (ChannelInfo.mk "0xlo" "open" 5) (by decide)).2 (by decide)⟩

/-- Events seen by the confirmation promise of `sendPayment`: inbound
frames, and the 2000 ms auto-resolve timer. -/
inductive PayEvent
  | frame (f : RawWsFrame)
  | autoTimer
  deriving DecidableEq

/-- Settlement state of the `sendPayment` confirmation promise. -/
inductive PayOutcome
  | pending
  | resolvedOk
  | rejected
  deriving DecidableEq

/-- Whether a frame resolves the `sendPayment` confirmation promise: the
listener resolves on `payment` or `payment_confirmed`, swallowing parse
errors. -/
def paymentFrameResolves (f : RawWsFrame) : Bool :=
  match f with
  | RawWsFrame.nonJson _ => false
  | RawWsFrame.valid m =>
    m.msgType == some "payment" || m.msgType == some "payment_confirmed"

/-- The `setTimeout(..., 2000)` of `sendPayment`. -/
def paymentAutoResolveMs : Nat := 2000

/-- The confirmation promise of `sendPayment` over the sequence of events
it observes: the first matching frame — or the auto-resolve timer —
settles it with a resolve; nothing can reject it. -/
def sendPaymentWait : List PayEvent → PayOutcome
  | [] => PayOutcome.pending
  | PayEvent.autoTimer :: _ => PayOutcome.resolvedOk
  | PayEvent.frame f :: rest =>
    if paymentFrameResolves f then PayOutcome.resolvedOk else sendPaymentWait rest

/-- C7: when the withdrawal call after a confirmed on-chain close throws,
the error is downgraded to warnings and the run still ends in the success
terminal state (exit code 0, completed-with-note logs); and the
withdrawal is attempted only after the close receipt, the 5-second
settling delay and the withdrawable-balance check — never when that
balance is zero. -/
theorem withdrawal_failure_is_soft (st : DemoState) (cid tx e : String) (wb : Nat)
    (hflag : st.isClosingChannel = false) (hwb : 0 < wb) :
    (closeChannelHandler st cid (Except.ok tx) (some wb) (Except.error e)).exitCode = some 0 ∧
    DemoAction.warnLine "Withdrawal failed:" ∈
      (closeChannelHandler st cid (Except.ok tx) (some wb) (Except.error e)).actions ∧
    DemoAction.logLine "Demo completed successfully!" ∈
      (closeChannelHandler st cid (Except.ok tx) (some wb) (Except.error e)).actions ∧
    precedes (closeChannelHandler st cid (Except.ok tx) (some wb) (Except.error e)).actions
      DemoAction.awaitReceipt (DemoAction.withdrawTx wb) ∧
    precedes (closeChannelHandler st cid (Except.ok tx) (some wb) (Except.error e)).actions
      (DemoAction.sleepMs 5000) (DemoAction.withdrawTx wb) ∧
    precedes (closeChannelHandler st cid (Except.ok tx) (some wb) (Except.error e)).actions
      (DemoAction.readContract "getAccountsBalances") (DemoAction.withdrawTx wb) ∧
    (∀ (st2 : DemoState) (cid2 tx2 : String) (wres2 : Except String String),
      st2.isClosingChannel = false →
      ∀ n, DemoAction.withdrawTx n ∉
        (closeChannelHandler st2 cid2 (Except.ok tx2) (some 0) wres2).actions) := by
  have ha : (closeChannelHandler st cid (Except.ok tx) (some wb) (Except.error e)).actions =
      [DemoAction.submitCloseTx cid,
       DemoAction.logLine "Channel closed on-chain:",
       DemoAction.awaitReceipt,
       DemoAction.logLine "Close transaction confirmed",
       DemoAction.sleepMs 5000,
       DemoAction.readContract "getAccountsBalances",
       DemoAction.withdrawTx wb,
       DemoAction.warnLine "Withdrawal failed:",
       DemoAction.warnLine "This may happen if the channel state has not fully settled on-chain yet.",
       DemoAction.logLine "Channel operations completed successfully (create, resize, close)",
       DemoAction.logLine "Note: Withdrawal can be performed manually later when the state settles.",
       DemoAction.logLine "Demo completed successfully!",
       DemoAction.exitProcess 0] := by
    unfold closeChannelHandler
    rw [if_neg (by simp [hflag])]
    simp [hwb]
  have hc : (closeChannelHandler st cid (Except.ok tx) (some wb) (Except.error e)).exitCode =
      some 0 := by
    unfold closeChannelHandler
    rw [if_neg (by simp [hflag])]
  refine ⟨hc, ?_, ?_, ?_, ?_, ?_, ?_⟩
  · rw [ha]; simp
  · rw [ha]; simp
  · rw [ha]; exact ⟨2, 6, by omega, rfl, rfl⟩
  · rw [ha]; exact ⟨4, 6, by omega, rfl, rfl⟩
  · rw [ha]; exact ⟨5, 6, by omega, rfl, rfl⟩
  · intro st2 cid2 tx2 wres2 hflag2 n
    unfold closeChannelHandler
    rw [if_neg (by simp [hflag2])]
    simp

theorem withdrawal_failure_is_soft_witness :
    (closeChannelHandler (DemoState.mk false) "0xc" (Except.ok "0xtx") (some 7)
      (Except.error "execution reverted")).exitCode = some 0 ∧
    DemoAction.warnLine "Withdrawal failed:" ∈
      (closeChannelHandler (DemoState.mk false) "0xc" (Except.ok "0xtx") (some 7)
        (Except.error "execution reverted")).actions ∧
    DemoAction.withdrawTx 3 ∉
      (closeChannelHandler (DemoState.mk false) "0xd" (Except.ok "0xtx2") (some 0)
        (Except.ok "0xw")).actions :=
  ⟨(withdrawal_failure_is_soft (DemoState.mk false) "0xc" "0xtx" "execution reverted" 7
      rfl (by decide)).1,
   (withdrawal_failure_is_soft (DemoState.mk false) "0xc" "0xtx" "execution reverted" 7
      rfl (by decide)).2.1,
   (withdrawal_failure_is_soft (DemoState.mk false) "0xc" "0xtx" "execution reverted" 7
      rfl (by decide)).2.2.2.2.2.2 (DemoState.mk false) "0xd" "0xtx2" (Except.ok "0xw") rfl 3⟩

theorem pollAux_zero (balanceAt : Nat → Option Nat) (required retries cur slept : Nat) :
    pollAux balanceAt required 0 retries cur slept = (cur, retries, slept) := rfl

theorem pollAux_succ (balanceAt : Nat → Option Nat) (required fuel retries cur slept : Nat) :
    pollAux balanceAt required (fuel + 1) retries cur slept =
      (if required ≤ (balanceAt retries).getD cur then
        ((balanceAt retries).getD cur, retries, slept)
       else pollAux balanceAt required fuel (retries + 1) ((balanceAt retries).getD cur)
         (slept + pollIntervalMs)) := rfl

theorem pollAux_retries_le (balanceAt : Nat → Option Nat) (required : Nat) :
    ∀ fuel retries cur slept,
      (pollAux balanceAt required fuel retries cur slept).2.1 ≤ retries + fuel := by
  intro fuel
  induction fuel with
  | zero => intro retries cur slept; simp [pollAux_zero]
  | succ n ih =>
    intro retries cur slept
    rw [pollAux_succ]
    by_cases h : required ≤ (balanceAt retries).getD cur
    · rw [if_pos h]
      simp only []
      omega
    · rw [if_neg h]
      have := ih (retries + 1) ((balanceAt retries).getD cur) (slept + pollIntervalMs)
      omega

theorem pollAux_finds (f : Nat → Nat) (required : Nat) :
    ∀ fuel retries cur slept i, retries ≤ i → i < retries + fuel →
      required ≤ f i → (∀ j, retries ≤ j → j < i → f j < required) →
      pollAux (fun n => some (f n)) required fuel retries cur slept =
        (f i, i, slept + pollIntervalMs * (i - retries)) := by
  intro fuel
  induction fuel with
  | zero =>
    intro retries cur slept i h1 h2 h3 h4
    exact absurd h2 (by omega)
  | succ n ih =>
    intro retries cur slept i h1 h2 h3 h4
    rw [pollAux_succ]
    simp only [Option.getD_some]
    by_cases he : retries = i
    · subst he
      rw [if_pos h3]
      simp
    · have hlt : retries < i := by omega
      have hfr : f retries < required := h4 retries (Nat.le_refl _) hlt
      rw [if_neg (by omega)]
      rw [ih (retries + 1) (f retries) (slept + pollIntervalMs) i (by omega) (by omega) h3
        (fun j hj1 hj2 => h4 j (by omega) hj2)]
      have hsub : slept + pollIntervalMs + pollIntervalMs * (i - (retries + 1)) =
          slept + pollIntervalMs * (i - retries) := by
        simp only [pollIntervalMs]
        omega
      rw [hsub]

theorem pollAux_exhaust (f : Nat → Nat) (required : Nat)
    (hall : ∀ j, f j < required) :
    ∀ fuel retries cur slept,
      pollAux (fun n => some (f n)) required (fuel + 1) retries cur slept =
        (f (retries + fuel), retries + fuel + 1, slept + pollIntervalMs * (fuel + 1)) := by
  intro fuel
  induction fuel with
  | zero =>
    intro retries cur slept
    rw [pollAux_succ]
    simp only [Option.getD_some]
    rw [if_neg (by have := hall retries; omega)]
    rw [pollAux_zero]
    simp
  | succ n ih =>
    intro retries cur slept
    rw [pollAux_succ]
    simp only [Option.getD_some]
    rw [if_neg (by have := hall retries; omega)]
    rw [ih (retries + 1) (f retries) (slept + pollIntervalMs)]
    have h1 : retries + 1 + n = retries + (n + 1) := by omega
    have h2 : slept + pollIntervalMs + pollIntervalMs * (n + 1) =
        slept + pollIntervalMs * (n + 1 + 1) := by
      simp only [pollIntervalMs]
      omega
    rw [h1, h2]

/-- C4: the custody-balance polling loop reads at most 30 times; it exits
at the first read reaching the required amount, having slept 2000 ms per
completed iteration; when the balance never reaches the required amount
it runs all 30 attempts with all 30 waits, raises the low-balance
warning, and the handler still submits the resize on-chain — the model
has no failure outcome at all, mirroring the absence of any throw on
this path. -/
theorem balance_poll_best_effort :
    pollMaxAttempts = 30 ∧ pollIntervalMs = 2000 ∧
    (∀ (balanceAt : Nat → Option Nat) (required : Nat) (initRead : Option Nat),
      (resizeChannelHandler initRead balanceAt required).finalRetries ≤ 30) ∧
    (∀ (f : Nat → Nat) (required : Nat) (initRead : Option Nat) (i : Nat),
      i < 30 → required ≤ f i → (∀ j, j < i → f j < required) →
      resizeChannelHandler initRead (fun n => some (f n)) required =
        { finalBalance := f i, finalRetries := i, sleptMs := 2000 * i
          warnedLowBalance := false, submittedResize := true }) ∧
    (∀ (f : Nat → Nat) (required : Nat) (initRead : Option Nat),
      (∀ j, f j < required) →
      (resizeChannelHandler initRead (fun n => some (f n)) required).warnedLowBalance = true ∧
      (resizeChannelHandler initRead (fun n => some (f n)) required).submittedResize = true ∧
      (resizeChannelHandler initRead (fun n => some (f n)) required).finalRetries = 30 ∧
      (resizeChannelHandler initRead (fun n => some (f n)) required).sleptMs = 2000 * 30) := by
  refine ⟨rfl, rfl, ?_, ?_, ?_⟩
  · intro balanceAt required initRead
    have := pollAux_retries_le balanceAt required pollMaxAttempts 0 (initRead.getD 0) 0
    simpa [resizeChannelHandler, pollMaxAttempts] using this
  · intro f required initRead i hi hreq hbelow
    have hp := pollAux_finds f required pollMaxAttempts 0 (initRead.getD 0) 0 i
      (Nat.zero_le i) (by simpa [pollMaxAttempts] using hi) hreq
      (fun j _ hj2 => hbelow j hj2)
    have hnl : ¬ (f i < required) := by omega
    unfold resizeChannelHandler
    rw [hp]
    simp [pollIntervalMs, hnl]
  · intro f required initRead hall
    have hp := pollAux_exhaust f required hall 29 0 (initRead.getD 0) 0
    have h30 : pollMaxAttempts = 29 + 1 := rfl
    have hl : f (0 + 29) < required := hall _
    unfold resizeChannelHandler
    rw [h30, hp]
    simp [pollIntervalMs, hl]

theorem balance_poll_best_effort_witness :
    (resizeChannelHandler none (fun _ => none) 5).finalRetries ≤ 30 ∧
    resizeChannelHandler (some 0) (fun n => some (if n = 2 then 50 else 0)) 50 =
      { finalBalance := 50, finalRetries := 2, sleptMs := 2000 * 2
        warnedLowBalance := false, submittedResize := true } ∧
    (resizeChannelHandler (some 0) (fun _ => some 0) 1).warnedLowBalance = true ∧
    (resizeChannelHandler (some 0) (fun _ => some 0) 1).submittedResize = true :=
  ⟨balance_poll_best_effort.2.2.1 (fun _ => none) 5 none,
   balance_poll_best_effort.2.2.2.1 (fun n => if n = 2 then 50 else 0) 50 (some 0) 2
     (by decide) (by decide)
     (by
      intro j hj
      show (if j = 2 then 50 else 0) < 50
      rw [if_neg (by omega)]
      decide),
   (balance_poll_best_effort.2.2.2.2 (fun _ => 0) 1 (some 0) (fun _ => Nat.zero_lt_one)).1,
   (balance_poll_best_effort.2.2.2.2 (fun _ => 0) 1 (some 0) (fun _ => Nat.zero_lt_one)).2.1⟩

/-- C10: the `sendPayment` confirmation promise has no reject path at
all; any event sequence containing the 2-second auto-resolve timer ends
resolved, so even a totally silent transport yields success; and the
caller sees the same resolved outcome whether a payment-confirmed frame
arrived or only the timer fired. -/
theorem payment_confirmation_never_rejects :
    (∀ evs, sendPaymentWait evs ≠ PayOutcome.rejected) ∧
    (∀ evs, PayEvent.autoTimer ∈ evs → sendPaymentWait evs = PayOutcome.resolvedOk) ∧
    sendPaymentWait [PayEvent.autoTimer] =
      sendPaymentWait
        [PayEvent.frame (RawWsFrame.valid (DemoMsg.mk none (some "payment_confirmed")))] := by
  refine ⟨?_, ?_, rfl⟩
  · intro evs
    induction evs with
    | nil => simp [sendPaymentWait]
    | cons e rest ih =>
      cases e with
      | autoTimer => simp [sendPaymentWait]
      | frame f =>
        by_cases hf : paymentFrameResolves f = true
        · simp [sendPaymentWait, hf]
        · simp only [sendPaymentWait]
          rw [if_neg hf]
          exact ih
  · intro evs hmem
    induction evs with
    | nil => simp at hmem
    | cons e rest ih =>
      cases e with
      | autoTimer => rfl
      | frame f =>
        have hmem2 : PayEvent.autoTimer ∈ rest := by
          rcases List.mem_cons.mp hmem with h | h
          · exact absurd h (by simp)
          · exact h
        by_cases hf : paymentFrameResolves f = true
        · simp [sendPaymentWait, hf]
        · simp only [sendPaymentWait]
          rw [if_neg hf]
          exact ih hmem2

theorem payment_confirmation_never_rejects_witness :
    sendPaymentWait [PayEvent.frame (RawWsFrame.nonJson "junk"), PayEvent.autoTimer] =
      PayOutcome.resolvedOk :=
  payment_confirmation_never_rejects.2.1
    [PayEvent.frame (RawWsFrame.nonJson "junk"), PayEvent.autoTimer] (by decide)

end Yellow
